import Mathlib

/-!
Verification of the PulseAudio support library (src/pulse/mainloop.c):
a shallow embedding of the reference-counted threaded mainloop singleton
(vlc_pa_mainloop_init / vlc_pa_mainloop_deinit), the connection
establishment path (vlc_pa_connect / context_wait) and teardown
(vlc_pa_disconnect), together with theorems about reference counting,
locking discipline and error handling.

State is explicit: `MLState` models the three file-scope globals
(vlc_pa_mainloop, refs, lock).  Calls into libpulse whose outcome depends
on the environment (allocation, thread start, server handshake) are
parametrised by small environment records.  Each operation additionally
returns a trace of events (`Ev`) recording mutex acquisition/release,
thread start/stop, context operations and error logging, so that
ordering properties (what happens under which lock, how many internal
releases occur) can be stated.
-/

/-- UINT_MAX for the 32-bit `unsigned` reference counter. -/
def UINT_MAX : Nat := 2 ^ 32 - 1

/-- The file-scope globals of mainloop.c: `vlc_pa_mainloop` (NULL modelled
as `none`, a live mainloop as `some m` for an abstract handle `m`) and the
`unsigned refs` counter.  The static mutex `lock` has no data content; its
acquisition/release is recorded in event traces. -/
structure MLState where
  mainloop : Option Nat
  refs : Nat
deriving DecidableEq, Repr

/-- Events recorded by the embedded operations. -/
inductive Ev where
  | lockRef
  | unlockRef
  | incRef
  | decRef
  | assertFail
  | mainloopNew (m : Nat)
  | threadStart (m : Nat)
  | threadStop (m : Nat)
  | mainloopFree (m : Nat)
  | mlLock (m : Nat)
  | mlUnlock (m : Nat)
  | ctxNew (c : Nat)
  | ctxSetStateCb (c : Nat)
  | ctxConnectReq (c : Nat)
  | ctxUnref (c : Nat)
  | errorLog (msg : String) (errno : Nat)
  | releaseCall (m : Nat)
deriving DecidableEq, Repr

/-- Environment for `vlc_pa_mainloop_init` on the zero-reference path:
whether `pa_threaded_mainloop_new` fails, whether
`pa_threaded_mainloop_start` fails, or both succeed yielding a fresh
mainloop handle `m`. -/
inductive InitEnv where
  | newFails
  | startFails (m : Nat)
  | ok (m : Nat)
deriving DecidableEq, Repr

/-- Embedding of `vlc_pa_mainloop_init` (mainloop.c lines 47-80).
Returns the new global state, the function result (`none` = NULL) and the
event trace.  Note the source's condition on the nonzero path is
`if (unlikely(refs < UINT_MAX)) goto out;` with `mainloop = NULL`, i.e. it
FAILS whenever `0 < refs < UINT_MAX` and only reuses the live mainloop at
`refs = UINT_MAX`; the embedding reproduces that faithfully.  The
`refs++` at `refs = UINT_MAX` wraps around, hence the `% 2 ^ 32`. -/
def vlc_pa_mainloop_init (env : InitEnv) (s : MLState) :
    MLState × Option Nat × List Ev :=
  if s.refs = 0 then
    match env with
    | .newFails => (s, none, [.lockRef, .unlockRef])
    | .startFails m =>
        (s, none, [.lockRef, .mainloopNew m, .mainloopFree m, .unlockRef])
    | .ok m =>
        (⟨some m, s.refs + 1⟩, some m,
         [.lockRef, .mainloopNew m, .threadStart m, .incRef, .unlockRef])
  else if s.refs < UINT_MAX then
    (s, none, [.lockRef, .unlockRef])
  else
    match s.mainloop with
    | none => (s, none, [.lockRef, .assertFail, .unlockRef])
    | some m =>
        (⟨some m, (s.refs + 1) % 2 ^ 32⟩, some m,
         [.lockRef, .incRef, .unlockRef])

/-- Embedding of `vlc_pa_mainloop_deinit` (mainloop.c lines 85-100).
`none` models a tripped assertion (`assert (refs > 0)` or
`assert (mainloop == vlc_pa_mainloop)`).  The global `vlc_pa_mainloop` is
not cleared when the count reaches zero (the source only nulls the local
variable used as a stop/free flag), and the stop/free happens after the
reference-count mutex is unlocked. -/
def vlc_pa_mainloop_deinit (m : Nat) (s : MLState) :
    Option (MLState × List Ev) :=
  if 0 < s.refs ∧ s.mainloop = some m then
    if s.refs - 1 ≠ 0 then
      some (⟨s.mainloop, s.refs - 1⟩, [.lockRef, .decRef, .unlockRef])
    else
      some (⟨s.mainloop, 0⟩,
        [.lockRef, .decRef, .unlockRef, .threadStop m, .mainloopFree m])
  else none

/-- C1: the claim asserts that an acquire made while `0 < refs < UINT_MAX`
returns the live handle and increments the count.  The code does the
opposite: at `refs = 1` (live mainloop handle 1) acquire returns NULL and
leaves the count at 1, because the source tests `refs < UINT_MAX` where the
intended (and `unlikely`-annotated) saturation test is `refs >= UINT_MAX`. -/
theorem acquire_midrange_fails :
    0 < (1 : Nat) ∧ (1 : Nat) < UINT_MAX ∧
    vlc_pa_mainloop_init (.ok 2) ⟨some 1, 1⟩ =
      (⟨some 1, 1⟩, none, [.lockRef, .unlockRef]) :=
  ⟨by decide, by decide, rfl⟩

/-- C2: the first acquire (refs 0 to 1) succeeds and starts the thread
exactly once, but the second acquire, made while the count is 1, fails and
does not return the existing handle — so the claimed scenario of two
successful acquire calls cannot occur. -/
theorem second_acquire_rejected :
    vlc_pa_mainloop_init (.ok 1) ⟨none, 0⟩ =
      (⟨some 1, 1⟩, some 1,
       [.lockRef, .mainloopNew 1, .threadStart 1, .incRef, .unlockRef]) ∧
    vlc_pa_mainloop_init (.ok 2) ⟨some 1, 1⟩ =
      (⟨some 1, 1⟩, none, [.lockRef, .unlockRef]) :=
  ⟨rfl, rfl⟩

/-- `true` iff every `decRef` in the trace occurs while the reference-count
mutex is held (lock depth 1), scanning with running depth `d`. -/
def decRefUnderLock : Int → List Ev → Bool
  | _, [] => true
  | d, .lockRef :: rest => decRefUnderLock (d + 1) rest
  | d, .unlockRef :: rest => decRefUnderLock (d - 1) rest
  | d, .decRef :: rest => d == 1 && decRefUnderLock d rest
  | d, _ :: rest => decRefUnderLock d rest

/-- `true` iff every thread stop and mainloop free in the trace occurs while
the reference-count mutex is NOT held (lock depth 0). -/
def stopOutsideLock : Int → List Ev → Bool
  | _, [] => true
  | d, .lockRef :: rest => stopOutsideLock (d + 1) rest
  | d, .unlockRef :: rest => stopOutsideLock (d - 1) rest
  | d, .threadStop _ :: rest => d == 0 && stopOutsideLock d rest
  | d, .mainloopFree _ :: rest => d == 0 && stopOutsideLock d rest
  | d, _ :: rest => stopOutsideLock d rest

/-- C4: when the count is zero and creating the event loop or starting its
thread fails, acquire returns NULL and the global state — in particular the
reference count, which stays zero — is unchanged. -/
theorem acquire_zero_failure_keeps_state (env : InitEnv) (s : MLState)
    (h0 : s.refs = 0)
    (hf : env = .newFails ∨ ∃ m, env = .startFails m) :
    (vlc_pa_mainloop_init env s).2.1 = none ∧
    (vlc_pa_mainloop_init env s).1 = s ∧
    (vlc_pa_mainloop_init env s).1.refs = 0 := by
  rcases hf with hf | ⟨m, hf⟩ <;> subst hf <;>
    simp [vlc_pa_mainloop_init, h0]

/-- Witness for `acquire_zero_failure_keeps_state` at a concrete input. -/
theorem acquire_zero_failure_keeps_state_witness :
    (vlc_pa_mainloop_init .newFails ⟨none, 0⟩).2.1 = none ∧
    (vlc_pa_mainloop_init .newFails ⟨none, 0⟩).1 = ⟨none, 0⟩ ∧
    (vlc_pa_mainloop_init .newFails ⟨none, 0⟩).1.refs = 0 :=
  acquire_zero_failure_keeps_state .newFails ⟨none, 0⟩ rfl (Or.inl rfl)

/-- C5: a successful release decrements the count, performs the decrement
at reference-count-mutex depth 1, performs any thread stop / mainloop free
at depth 0 (after the unlock), stops and frees the thread exactly when the
count reaches zero, and otherwise stops nothing. -/
theorem release_stops_thread_outside_mutex (m : Nat) (s s2 : MLState)
    (t : List Ev) (h : vlc_pa_mainloop_deinit m s = some (s2, t)) :
    s2.refs = s.refs - 1 ∧
    decRefUnderLock 0 t = true ∧
    stopOutsideLock 0 t = true ∧
    (s2.refs = 0 → Ev.threadStop m ∈ t ∧ Ev.mainloopFree m ∈ t) ∧
    (s2.refs ≠ 0 → ∀ m2, Ev.threadStop m2 ∉ t) := by
  unfold vlc_pa_mainloop_deinit at h
  split at h
  · split at h <;> rename_i hr
    · obtain ⟨hs, ht⟩ := Prod.mk.injEq .. ▸ Option.some.injEq .. ▸ h
      subst ht
      refine ⟨by rw [← hs], rfl, rfl, fun h0 => absurd h0 (by rw [← hs]; exact hr), ?_⟩
      intro _ m2
      simp [decRefUnderLock, stopOutsideLock]
    · obtain ⟨hs, ht⟩ := Prod.mk.injEq .. ▸ Option.some.injEq .. ▸ h
      subst ht
      push_neg at hr
      refine ⟨by rw [← hs, hr], rfl, rfl, fun _ => by simp, ?_⟩
      intro h0
      exact absurd (by rw [← hs]) h0
  · exact absurd h (by simp)

/-- Witness for `release_stops_thread_outside_mutex` at a concrete input:
the last holder releases, the thread is stopped after the unlock. -/
theorem release_stops_thread_outside_mutex_witness :
    (⟨some 1, 0⟩ : MLState).refs = (⟨some 1, 1⟩ : MLState).refs - 1 ∧
    decRefUnderLock 0
      [.lockRef, .decRef, .unlockRef, .threadStop 1, .mainloopFree 1] = true ∧
    stopOutsideLock 0
      [.lockRef, .decRef, .unlockRef, .threadStop 1, .mainloopFree 1] = true ∧
    ((⟨some 1, 0⟩ : MLState).refs = 0 →
      Ev.threadStop 1 ∈
        [Ev.lockRef, .decRef, .unlockRef, .threadStop 1, .mainloopFree 1] ∧
      Ev.mainloopFree 1 ∈
        [Ev.lockRef, .decRef, .unlockRef, .threadStop 1, .mainloopFree 1]) ∧
    ((⟨some 1, 0⟩ : MLState).refs ≠ 0 → ∀ m2, Ev.threadStop m2 ∉
        [Ev.lockRef, .decRef, .unlockRef, .threadStop 1, .mainloopFree 1]) :=
  release_stops_thread_outside_mutex 1 ⟨some 1, 1⟩ ⟨some 1, 0⟩
    [.lockRef, .decRef, .unlockRef, .threadStop 1, .mainloopFree 1] rfl

/-- PulseAudio context states (pa_context_state_t). -/
inductive PaContextState where
  | unconnected
  | connecting
  | authorizing
  | settingName
  | ready
  | failed
  | terminated
deriving DecidableEq, Repr

/-- The C implicit conversion from the `int` actually returned by
`context_wait` to its declared `bool` return type: nonzero becomes true. -/
def intToBool (i : Int) : Bool := i != 0

/-- Embedding of `context_wait` (mainloop.c lines 150-161).  The input list
is the sequence of states observed by successive `pa_context_get_state`
reads (one fresh observation after each `pa_threaded_mainloop_wait`).
Despite the declared `bool` return type the body returns the `int`s -1 and
0; the embedded result is that `Int`.  An empty observation stream means
the loop never returns (`none`). -/
def context_wait : List PaContextState → Option Int
  | [] => none
  | st :: rest =>
    if st = .ready then some 0
    else if st = .failed ∨ st = .terminated then some (-1)
    else context_wait rest

/-- The first settled (Ready, Failed or Terminated) state in an observation
stream, if any — the state on which the wait loop makes its decision. -/
def firstSettled : List PaContextState → Option PaContextState
  | [] => none
  | st :: rest =>
    if st = .ready ∨ st = .failed ∨ st = .terminated then some st
    else firstSettled rest

theorem firstSettled_settled (obs : List PaContextState)
    (st : PaContextState) (hf : firstSettled obs = some st) :
    st = .ready ∨ st = .failed ∨ st = .terminated := by
  induction obs with
  | nil => exact absurd hf (by simp [firstSettled])
  | cons st2 rest ih =>
    by_cases h2 : st2 = .ready ∨ st2 = .failed ∨ st2 = .terminated
    · rw [firstSettled, if_pos h2, Option.some.injEq] at hf
      exact hf ▸ h2
    · rw [firstSettled, if_neg h2] at hf
      exact ih hf

theorem context_wait_eq_firstSettled (obs : List PaContextState) :
    context_wait obs =
      (firstSettled obs).map (fun st => if st = .ready then 0 else -1) := by
  induction obs with
  | nil => rfl
  | cons st rest ih => cases st <;> simp [context_wait, firstSettled, ih]

/-- C10: `context_wait` returns the int -1 exactly when the first settled
observed state is Failed or Terminated and the int 0 exactly when it is
Ready; under the C bool conversion -1 reads as true and 0 as false, so the
caller's disjunctive failure test distinguishes the two outcomes. -/
theorem context_wait_bool_semantics (obs : List PaContextState) (r : Int)
    (h : context_wait obs = some r) :
    (firstSettled obs = some .ready ∧ r = 0 ∧ intToBool r = false) ∨
    ((firstSettled obs = some .failed ∨ firstSettled obs = some .terminated) ∧
      r = -1 ∧ intToBool r = true) := by
  rw [context_wait_eq_firstSettled] at h
  match hf : firstSettled obs with
  | none => rw [hf] at h; exact absurd h (by simp)
  | some st =>
    rw [hf] at h
    simp at h
    rcases firstSettled_settled obs st hf with hst | hst | hst <;>
      subst hst <;> simp_all [intToBool] <;> omega

/-- Witness for `context_wait_bool_semantics`: an immediately failed
handshake yields -1, read as true. -/
theorem context_wait_bool_semantics_witness :
    (firstSettled [PaContextState.failed] = some .ready ∧ (-1 : Int) = 0 ∧
      intToBool (-1) = false) ∨
    ((firstSettled [PaContextState.failed] = some .failed ∨
      firstSettled [PaContextState.failed] = some .terminated) ∧
      (-1 : Int) = -1 ∧ intToBool (-1) = true) :=
  context_wait_bool_semantics [.failed] (-1) rfl

/-- Environment for one `vlc_pa_connect` call: the mainloop-creation
outcome, the host's user-agent string (`var_InheritString`, the optional
client identity), the `pa_context_new` outcome, the `pa_context_connect`
return value, the server error code read by `pa_context_errno`, and the
context states observed by the wait loop. -/
structure ConnEnv where
  init : InitEnv
  ua : Option String
  ctxNew : Option Nat
  connectRet : Int
  errno : Nat
  obs : List PaContextState
deriving DecidableEq, Repr

/-- A connected PulseAudio context as returned by `vlc_pa_connect`: its
handle, the mainloop whose dispatch API it was created on
(`pa_threaded_mainloop_get_api`), the client identity string passed to
`pa_context_new`, whether the state callback was registered, and its
state at return. -/
structure CtxModel where
  handle : Nat
  boundLoop : Nat
  clientId : Option String
  cbRegistered : Bool
  state : PaContextState
deriving DecidableEq, Repr

/-- Embedding of `vlc_pa_connect` (mainloop.c lines 167-199).  Returns
`none` only when the code itself does not return (unbounded wait, or a
tripped assertion inside a `vlc_pa_mainloop_deinit` call); otherwise the
new global state, the returned context (NULL as `none`) and the trace. -/
def vlc_pa_connect (env : ConnEnv) (s : MLState) :
    Option (MLState × Option CtxModel × List Ev) :=
  match vlc_pa_mainloop_init env.init s with
  | (s1, none, t1) => some (s1, none, t1)
  | (s1, some m, t1) =>
    match env.ctxNew with
    | none =>
      match vlc_pa_mainloop_deinit m s1 with
      | none => none
      | some (s2, t2) =>
        some (s2, none, t1 ++ [.mlLock m, .mlUnlock m, .releaseCall m] ++ t2)
    | some c =>
      if env.connectRet < 0 then
        match vlc_pa_mainloop_deinit m s1 with
        | none => none
        | some (s2, t2) =>
          some (s2, none,
            t1 ++ [.mlLock m, .ctxNew c, .ctxSetStateCb c, .ctxConnectReq c,
              .errorLog "PulseAudio server connection failure" env.errno,
              .ctxUnref c, .mlUnlock m, .releaseCall m] ++ t2)
      else
        match context_wait env.obs with
        | none => none
        | some r =>
          if intToBool r then
            match vlc_pa_mainloop_deinit m s1 with
            | none => none
            | some (s2, t2) =>
              some (s2, none,
                t1 ++ [.mlLock m, .ctxNew c, .ctxSetStateCb c, .ctxConnectReq c,
                  .errorLog "PulseAudio server connection failure" env.errno,
                  .ctxUnref c, .mlUnlock m, .releaseCall m] ++ t2)
          else
            some (s1, some ⟨c, m, env.ua, true, .ready⟩,
              t1 ++ [.mlLock m, .ctxNew c, .ctxSetStateCb c, .ctxConnectReq c,
                .mlUnlock m])

/-- Embedding of `vlc_pa_disconnect` (mainloop.c lines 204-214): reads the
global mainloop, unreferences the context under the mainloop lock, then
releases the mainloop reference outside that lock. -/
def vlc_pa_disconnect (c : Nat) (s : MLState) : Option (MLState × List Ev) :=
  match s.mainloop with
  | none => none
  | some m =>
    match vlc_pa_mainloop_deinit m s with
    | none => none
    | some (s2, t2) =>
      some (s2, [.mlLock m, .ctxUnref c, .mlUnlock m, .releaseCall m] ++ t2)

/-- Is this event a call into `vlc_pa_mainloop_deinit` (an internal release
of the event-loop reference)? -/
def isReleaseCall : Ev → Bool
  | .releaseCall _ => true
  | _ => false

/-- Number of internal event-loop releases recorded in a trace. -/
def releaseCount (t : List Ev) : Nat := (t.filter isReleaseCall).length

/-- `true` iff context creation, state-callback registration and the
connect request all happen while the mainloop lock is held (depth 1). -/
def ctxSetupUnderLoopLock : Int → List Ev → Bool
  | _, [] => true
  | d, .mlLock _ :: rest => ctxSetupUnderLoopLock (d + 1) rest
  | d, .mlUnlock _ :: rest => ctxSetupUnderLoopLock (d - 1) rest
  | d, .ctxNew _ :: rest => d == 1 && ctxSetupUnderLoopLock d rest
  | d, .ctxSetStateCb _ :: rest => d == 1 && ctxSetupUnderLoopLock d rest
  | d, .ctxConnectReq _ :: rest => d == 1 && ctxSetupUnderLoopLock d rest
  | d, _ :: rest => ctxSetupUnderLoopLock d rest

/-- `true` iff every context unreference happens while the mainloop lock is
held (depth 1). -/
def unrefUnderLoopLock : Int → List Ev → Bool
  | _, [] => true
  | d, .mlLock _ :: rest => unrefUnderLoopLock (d + 1) rest
  | d, .mlUnlock _ :: rest => unrefUnderLoopLock (d - 1) rest
  | d, .ctxUnref _ :: rest => d == 1 && unrefUnderLoopLock d rest
  | d, _ :: rest => unrefUnderLoopLock d rest

/-- `true` iff every event-loop release call and every thread stop happens
while the mainloop lock is NOT held (depth 0). -/
def releaseOutsideLoopLock : Int → List Ev → Bool
  | _, [] => true
  | d, .mlLock _ :: rest => releaseOutsideLoopLock (d + 1) rest
  | d, .mlUnlock _ :: rest => releaseOutsideLoopLock (d - 1) rest
  | d, .releaseCall _ :: rest => d == 0 && releaseOutsideLoopLock d rest
  | d, .threadStop _ :: rest => d == 0 && releaseOutsideLoopLock d rest
  | d, _ :: rest => releaseOutsideLoopLock d rest

/-- `true` iff no event-loop release call precedes the first context
unreference in the trace. -/
def unrefBeforeRelease : List Ev → Bool
  | [] => true
  | .releaseCall _ :: _ => false
  | .ctxUnref _ :: _ => true
  | _ :: rest => unrefBeforeRelease rest

/-- C3: when the wait loop observes Failed or Terminated, `vlc_pa_connect`
logs the connection failure with the server-reported error code, returns
NULL, restores the reference count, and performs exactly one internal
release of the event-loop handle (which here also stops the thread the
acquire had started). -/
theorem connect_failed_releases_eventloop (env : ConnEnv) (s : MLState)
    (m c : Nat) (h0 : s.refs = 0) (h1 : env.init = .ok m)
    (h2 : env.ctxNew = some c) (h3 : 0 ≤ env.connectRet)
    (h4 : firstSettled env.obs = some .failed ∨
      firstSettled env.obs = some .terminated) :
    ∃ s2 t, vlc_pa_connect env s = some (s2, none, t) ∧
      s2.refs = s.refs ∧
      releaseCount t = 1 ∧
      Ev.errorLog "PulseAudio server connection failure" env.errno ∈ t ∧
      Ev.threadStop m ∈ t := by
  obtain ⟨ml, r⟩ := s
  simp only [MLState.refs] at h0
  subst h0
  have hw : context_wait env.obs = some (-1) := by
    rw [context_wait_eq_firstSettled]
    rcases h4 with h4 | h4 <;> rw [h4] <;> rfl
  have h3n : ¬ env.connectRet < 0 := not_lt.mpr h3
  have hc : vlc_pa_connect env ⟨ml, 0⟩ =
      some (⟨some m, 0⟩, none,
        [.lockRef, .mainloopNew m, .threadStart m, .incRef, .unlockRef,
         .mlLock m, .ctxNew c, .ctxSetStateCb c, .ctxConnectReq c,
         .errorLog "PulseAudio server connection failure" env.errno,
         .ctxUnref c, .mlUnlock m, .releaseCall m,
         .lockRef, .decRef, .unlockRef, .threadStop m, .mainloopFree m]) := by
    simp [vlc_pa_connect, vlc_pa_mainloop_init, vlc_pa_mainloop_deinit,
      h1, h2, hw, h3n, intToBool]
  exact ⟨_, _, hc, rfl, by simp [releaseCount, isReleaseCall],
    by simp, by simp⟩

/-- Witness for `connect_failed_releases_eventloop`: a handshake that
immediately reports Failed, server error code 5. -/
theorem connect_failed_releases_eventloop_witness :
    ∃ s2 t,
      vlc_pa_connect ⟨.ok 1, some "vlc", some 7, 0, 5, [.failed]⟩
        ⟨none, 0⟩ = some (s2, none, t) ∧
      s2.refs = (⟨none, 0⟩ : MLState).refs ∧
      releaseCount t = 1 ∧
      Ev.errorLog "PulseAudio server connection failure" 5 ∈ t ∧
      Ev.threadStop 1 ∈ t :=
  connect_failed_releases_eventloop ⟨.ok 1, some "vlc", some 7, 0, 5,
    [.failed]⟩ ⟨none, 0⟩ 1 7 rfl rfl rfl (by decide) (Or.inl rfl)

/-- C6: on a successful handshake `vlc_pa_connect` acquires the event-loop
handle (count 0 to 1, thread started), creates the context on the loop's
dispatch API carrying the optional client identity, registers the state
callback and issues the connect request all under the loop's lock, and
returns the context in Ready state with no internal release. -/
theorem connect_success_returns_ready (env : ConnEnv) (s : MLState)
    (m c : Nat) (h0 : s.refs = 0) (h1 : env.init = .ok m)
    (h2 : env.ctxNew = some c) (h3 : 0 ≤ env.connectRet)
    (h4 : firstSettled env.obs = some .ready) :
    ∃ t, vlc_pa_connect env s =
        some (⟨some m, 1⟩, some ⟨c, m, env.ua, true, .ready⟩, t) ∧
      Ev.threadStart m ∈ t ∧
      Ev.ctxNew c ∈ t ∧ Ev.ctxSetStateCb c ∈ t ∧ Ev.ctxConnectReq c ∈ t ∧
      ctxSetupUnderLoopLock 0 t = true ∧
      releaseCount t = 0 := by
  obtain ⟨ml, r⟩ := s
  simp only [MLState.refs] at h0
  subst h0
  have hw : context_wait env.obs = some 0 := by
    rw [context_wait_eq_firstSettled, h4]; rfl
  have h3n : ¬ env.connectRet < 0 := not_lt.mpr h3
  have hc : vlc_pa_connect env ⟨ml, 0⟩ =
      some (⟨some m, 1⟩, some ⟨c, m, env.ua, true, .ready⟩,
        [.lockRef, .mainloopNew m, .threadStart m, .incRef, .unlockRef,
         .mlLock m, .ctxNew c, .ctxSetStateCb c, .ctxConnectReq c,
         .mlUnlock m]) := by
    simp [vlc_pa_connect, vlc_pa_mainloop_init, h1, h2, hw, h3n, intToBool]
  exact ⟨_, hc, by simp, by simp, by simp, by simp,
    by simp [ctxSetupUnderLoopLock], by simp [releaseCount, isReleaseCall]⟩

/-- Witness for `connect_success_returns_ready`: a handshake that
immediately reports Ready. -/
theorem connect_success_returns_ready_witness :
    ∃ t, vlc_pa_connect ⟨.ok 1, some "vlc", some 7, 0, 0, [.ready]⟩
        ⟨none, 0⟩ =
        some (⟨some 1, 1⟩, some ⟨7, 1, some "vlc", true, .ready⟩, t) ∧
      Ev.threadStart 1 ∈ t ∧
      Ev.ctxNew 7 ∈ t ∧ Ev.ctxSetStateCb 7 ∈ t ∧ Ev.ctxConnectReq 7 ∈ t ∧
      ctxSetupUnderLoopLock 0 t = true ∧
      releaseCount t = 0 :=
  connect_success_returns_ready ⟨.ok 1, some "vlc", some 7, 0, 0, [.ready]⟩
    ⟨none, 0⟩ 1 7 rfl rfl rfl (by decide) rfl

/-- C7: `vlc_pa_disconnect` unreferences the context while holding the
loop's lock, and only afterwards — outside the loop's lock — performs its
single release of the event-loop handle, which stops the shared thread
exactly when this caller was the last holder. -/
theorem disconnect_unref_locked_then_release (c : Nat) (s : MLState)
    (m : Nat) (hm : s.mainloop = some m) (hr : 0 < s.refs) :
    ∃ s2 t, vlc_pa_disconnect c s = some (s2, t) ∧
      s2.refs = s.refs - 1 ∧
      Ev.ctxUnref c ∈ t ∧
      unrefUnderLoopLock 0 t = true ∧
      unrefBeforeRelease t = true ∧
      releaseCount t = 1 ∧
      releaseOutsideLoopLock 0 t = true ∧
      (s.refs = 1 → Ev.threadStop m ∈ t) ∧
      (1 < s.refs → ∀ m2, Ev.threadStop m2 ∉ t) := by
  obtain ⟨ml, r⟩ := s
  simp only [MLState.mainloop] at hm
  subst hm
  simp only [MLState.refs] at hr ⊢
  by_cases h1 : r = 1
  · subst h1
    have hd : vlc_pa_disconnect c ⟨some m, 1⟩ =
        some (⟨some m, 0⟩,
          [.mlLock m, .ctxUnref c, .mlUnlock m, .releaseCall m,
           .lockRef, .decRef, .unlockRef, .threadStop m, .mainloopFree m]) := by
      simp [vlc_pa_disconnect, vlc_pa_mainloop_deinit]
    exact ⟨_, _, hd, rfl, by simp, by simp [unrefUnderLoopLock],
      by simp [unrefBeforeRelease], by simp [releaseCount, isReleaseCall],
      by simp [releaseOutsideLoopLock], fun _ => by simp,
      fun h => absurd h (by omega)⟩
  · have hne : r - 1 ≠ 0 := by omega
    have hd : vlc_pa_disconnect c ⟨some m, r⟩ =
        some (⟨some m, r - 1⟩,
          [.mlLock m, .ctxUnref c, .mlUnlock m, .releaseCall m,
           .lockRef, .decRef, .unlockRef]) := by
      simp [vlc_pa_disconnect, vlc_pa_mainloop_deinit, hr, hne]
    exact ⟨_, _, hd, rfl, by simp, by simp [unrefUnderLoopLock],
      by simp [unrefBeforeRelease], by simp [releaseCount, isReleaseCall],
      by simp [releaseOutsideLoopLock], fun h => absurd h h1,
      fun _ => by simp⟩

/-- Witness for `disconnect_unref_locked_then_release`: the last holder
disconnects; the thread stop appears after the unlock. -/
theorem disconnect_unref_locked_then_release_witness :
    ∃ s2 t, vlc_pa_disconnect 7 ⟨some 1, 1⟩ = some (s2, t) ∧
      s2.refs = (⟨some 1, 1⟩ : MLState).refs - 1 ∧
      Ev.ctxUnref 7 ∈ t ∧
      unrefUnderLoopLock 0 t = true ∧
      unrefBeforeRelease t = true ∧
      releaseCount t = 1 ∧
      releaseOutsideLoopLock 0 t = true ∧
      ((⟨some 1, 1⟩ : MLState).refs = 1 → Ev.threadStop 1 ∈ t) ∧
      (1 < (⟨some 1, 1⟩ : MLState).refs → ∀ m2, Ev.threadStop m2 ∉ t) :=
  disconnect_unref_locked_then_release 7 ⟨some 1, 1⟩ 1 rfl (by decide)

theorem init_none_keeps_state (env : InitEnv) (s s2 : MLState)
    (t : List Ev) (h : vlc_pa_mainloop_init env s = (s2, none, t)) :
    s2 = s := by
  unfold vlc_pa_mainloop_init at h
  split at h
  · cases env <;> simp_all
  · split at h
    · simp_all
    · cases hm : s.mainloop <;> rw [hm] at h <;> simp_all

theorem init_some_from_zero (env : InitEnv) (s s2 : MLState) (m : Nat)
    (t : List Ev) (hle : s.refs ≤ 1)
    (h : vlc_pa_mainloop_init env s = (s2, some m, t)) :
    s.refs = 0 ∧ env = .ok m ∧ s2 = ⟨some m, 1⟩ := by
  unfold vlc_pa_mainloop_init at h
  split at h <;> rename_i h0
  · cases env <;> simp_all
    obtain ⟨h1, h2, _⟩ := h
    subst h2
    exact h1.symm
  · have hlt : s.refs < UINT_MAX := by
      have : (1 : Nat) < UINT_MAX := by decide
      omega
    rw [if_pos hlt] at h
    simp_all

theorem deinit_some_state (m : Nat) (s s2 : MLState) (t : List Ev)
    (h : vlc_pa_mainloop_deinit m s = some (s2, t)) :
    s2 = ⟨s.mainloop, s.refs - 1⟩ := by
  unfold vlc_pa_mainloop_deinit at h
  split at h
  · split at h <;> rename_i hr <;> simp_all
  · simp_all

/-- A client world: the global state plus the handles successfully
acquired and not yet released by the process's clients. -/
structure World where
  st : MLState
  held : List Nat
deriving DecidableEq, Repr

/-- Steps available under the discipline of exactly one release per
successful acquire: any acquire attempt, or a release of a handle that is
currently held (and is removed from the held list by that release). -/
inductive WStep : World → World → Prop where
  | acquireOk (w : World) (env : InitEnv) (s2 : MLState) (m : Nat)
      (t : List Ev)
      (h : vlc_pa_mainloop_init env w.st = (s2, some m, t)) :
      WStep w ⟨s2, m :: w.held⟩
  | acquireFail (w : World) (env : InitEnv) (s2 : MLState) (t : List Ev)
      (h : vlc_pa_mainloop_init env w.st = (s2, none, t)) :
      WStep w ⟨s2, w.held⟩
  | release (w : World) (m : Nat) (s2 : MLState) (t : List Ev)
      (hm : m ∈ w.held)
      (h : vlc_pa_mainloop_deinit m w.st = some (s2, t)) :
      WStep w ⟨s2, w.held.erase m⟩

/-- The initial world: no mainloop, zero references, no holders. -/
def initWorld : World := ⟨⟨none, 0⟩, []⟩

/-- Worlds reachable from the initial world under the discipline. -/
def WReachable (w : World) : Prop :=
  Relation.ReflTransGen WStep initWorld w

/-- Invariant of reachable worlds: the count equals the number of held
handles, at most one handle is ever held, and every held handle is the
current global mainloop. -/
def WInv (w : World) : Prop :=
  w.st.refs = w.held.length ∧ w.st.refs ≤ 1 ∧
    ∀ m ∈ w.held, w.st.mainloop = some m

theorem WInv_step (w w2 : World) (hw : WInv w) (hs : WStep w w2) :
    WInv w2 := by
  obtain ⟨hlen, hle, hml⟩ := hw
  cases hs with
  | acquireOk env s2 m t h =>
    obtain ⟨h0, _, hs2⟩ := init_some_from_zero env w.st s2 m t hle h
    have hnil : w.held = [] := by
      have hz : w.held.length = 0 := by omega
      exact List.length_eq_zero.mp hz
    subst hs2
    refine ⟨by simp [hnil], by simp, ?_⟩
    intro m2 hm2
    rw [hnil] at hm2
    simp at hm2
    simp [hm2]
  | acquireFail env s2 t h =>
    have := init_none_keeps_state env w.st s2 t h
    subst this
    exact ⟨hlen, hle, hml⟩
  | release m s2 t hm h =>
    have hs2 := deinit_some_state m w.st s2 t h
    have hpos : 0 < w.held.length :=
      List.length_pos.mpr (List.ne_nil_of_mem hm)
    have h1 : w.st.refs = 1 := by omega
    have hone : w.held = [m] := by
      obtain ⟨a, ha⟩ :=
        List.length_eq_one.mp (by omega : w.held.length = 1)
      rw [ha] at hm
      simp at hm
      rw [ha, hm]
    subst hs2
    refine ⟨by simp [hone, h1], by simp [h1], ?_⟩
    intro m2 hm2
    rw [hone] at hm2
    simp at hm2

theorem WInv_reachable (w : World) (hw : WReachable w) : WInv w := by
  induction hw with
  | refl => exact ⟨rfl, by simp [initWorld], by simp [initWorld]⟩
  | tail hab hbc ih => exact WInv_step _ _ ih hbc

/-- C9: a release is only well defined when the count is positive and the
released handle is the current global mainloop — exactly the two
assertions of `vlc_pa_mainloop_deinit` — and in every world reachable
under the one-release-per-successful-acquire discipline, any currently
held handle satisfies both, so the assertions cannot trip. -/
theorem release_preconditions_valid (w : World) (m : Nat)
    (hw : WReachable w) (hm : m ∈ w.held) :
    0 < w.st.refs ∧ w.st.mainloop = some m ∧
    (vlc_pa_mainloop_deinit m w.st).isSome = true ∧
    ∀ m2 s, (vlc_pa_mainloop_deinit m2 s).isSome = true ↔
      (0 < s.refs ∧ s.mainloop = some m2) := by
  obtain ⟨hlen, hle, hml⟩ := WInv_reachable w hw
  have h1 : 0 < w.st.refs := by
    rw [hlen]
    exact List.length_pos.mpr (List.ne_nil_of_mem hm)
  have h2 := hml m hm
  have hiff : ∀ m2 s, (vlc_pa_mainloop_deinit m2 s).isSome = true ↔
      (0 < s.refs ∧ s.mainloop = some m2) := by
    intro m2 s
    unfold vlc_pa_mainloop_deinit
    split <;> rename_i hc
    · constructor
      · intro _
        exact hc
      · intro _
        split <;> rfl
    · simp [hc]
  exact ⟨h1, h2, (hiff m w.st).mpr ⟨h1, h2⟩, hiff⟩

/-- Witness for `release_preconditions_valid`: after one successful
acquire, the single held handle satisfies both release preconditions. -/
theorem release_preconditions_valid_witness :
    0 < (⟨⟨some 1, 1⟩, [1]⟩ : World).st.refs ∧
    (⟨⟨some 1, 1⟩, [1]⟩ : World).st.mainloop = some 1 ∧
    (vlc_pa_mainloop_deinit 1 (⟨⟨some 1, 1⟩, [1]⟩ : World).st).isSome
      = true ∧
    ∀ m2 s, (vlc_pa_mainloop_deinit m2 s).isSome = true ↔
      (0 < s.refs ∧ s.mainloop = some m2) :=
  release_preconditions_valid ⟨⟨some 1, 1⟩, [1]⟩ 1
    (Relation.ReflTransGen.single
      (WStep.acquireOk initWorld (.ok 1) ⟨some 1, 1⟩ 1
        [.lockRef, .mainloopNew 1, .threadStart 1, .incRef, .unlockRef]
        rfl))
    (by simp)

/-- Direction flag of a latency estimate: already in the past (the sample
was captured before now) or yet to play (future direction). -/
inductive LatencyDirection where
  | past
  | future
deriving DecidableEq, Repr

/-- Modelled from the spec: the Frame Delivery Pipeline's presentation
timestamp.  The pipeline source (the capture module registering the
data-ready callback) is not present under src — only mainloop.c is — so
this follows the spec's words: presentation timestamp equals the captured
wall time minus the latency when the latency is reported as in the past,
and plus the latency when reported as yet to play.  Times are in
microseconds. -/
def framePts (captureTime latency : Int) : LatencyDirection → Int
  | .past => captureTime - latency
  | .future => captureTime + latency

/-- C8: the presentation timestamp subtracts a past-direction latency and
adds a future-direction latency, checked on the spec's literal values
(capture 100000 us, latency 2000 us) and in general. -/
theorem framePts_latency_compensation :
    framePts 100000 2000 .past = 98000 ∧
    framePts 100000 2000 .future = 102000 ∧
    ∀ c l : Int, framePts c l .past = c - l ∧ framePts c l .future = c + l :=
  ⟨by decide, by decide, fun c l => ⟨rfl, rfl⟩⟩
